import Mathlib

/-!
Verification of the Phone-book command-line dispatcher
(`mastering-go/Phone-book/internal/controller/controller.go`) against its
specification.  The dispatcher is embedded as a pure function from an
abstract record store and an argument vector to an optional pair of the
printed output and the trace of store calls; `none` models a runtime panic
(index out of range).  The record-store package itself is not part of the
sources, so its insert/delete semantics are modelled from the spec where a
claim needs them.
-/

namespace PhoneBook

/-- A contact record: `phonebook.Entry` with fields Name, Surname,
PhoneNumber and an integer identifier assigned by the store. -/
structure Entry where
  id : Int
  Name : String
  Surname : String
  PhoneNumber : String
  deriving DecidableEq, Repr

/-- A store error value carrying a human-readable message, as inspected by
the dispatcher via `err.Message`. -/
structure AppError where
  Message : String
  deriving DecidableEq, Repr

/-- The record-store collaborator as seen from the dispatcher: the results
of the four phonebook operations the dispatcher may call.  Quantifying over
this structure quantifies over all store behaviours. -/
structure Store where
  GetList : Except AppError (List Entry)
  Serach : List Entry → String → Except AppError Entry
  Insert : Entry → Except AppError Int
  Delete : String → Except AppError Unit

/-- One item written to standard output: a text line, the printed
representation of a single entry, or of the whole collection. -/
inductive Output where
  | line (s : String)
  | entry (e : Entry)
  | entries (l : List Entry)
  deriving DecidableEq, Repr

/-- One call made to the record store, in order of occurrence. -/
inductive StoreCall where
  | getList
  | serach (l : List Entry) (term : String)
  | insert (e : Entry)
  | delete (key : String)
  deriving DecidableEq, Repr

/-- `checkArgumentsLength` from controller.go: an error value (whose
message is never printed by the caller) when the vector has exactly one
element, nil otherwise. -/
def checkArgumentsLength (arguments : List String) : Option String :=
  if arguments.length = 1 then some "Please enter required arguments!!" else none

/-- `validateDelete` from controller.go: an error unless the vector has
exactly 3 elements. -/
def validateDelete (arguments : List String) : Option String :=
  if arguments.length ≠ 3 then some "not enought arguments for delete" else none

/-- `validateInsert` from controller.go: an error unless the vector has
exactly 5 elements. -/
def validateInsert (arguments : List String) : Option String :=
  if arguments.length ≠ 5 then some "not enought arguments for insert" else none

/-- The body of the switch statement of `CommandLineHandler`, over the
subcommand `sub` read from element 1 of the vector.  The Go switch is an
if-chain tried in source order; `fmt.Printf` of the insert success line
keeps the trailing space of its format string. -/
def dispatchSub (store : Store) (arguments : List String) (sub : String) :
    Option (List Output × List StoreCall) :=
  if sub = "search" then
    if arguments.length ≠ 3 then
      some ([Output.line "Please provide a search term"], [])
    else
      match store.GetList with
      | .error appErr => some ([Output.line appErr.Message], [StoreCall.getList])
      | .ok usersList =>
        match arguments[2]? with
        | none => none
        | some term =>
          match store.Serach usersList term with
          | .error err =>
              some ([Output.line err.Message],
                [StoreCall.getList, StoreCall.serach usersList term])
          | .ok result =>
              some ([Output.entry result],
                [StoreCall.getList, StoreCall.serach usersList term])
  else if sub = "list" then
    match store.GetList with
    | .error err => some ([Output.line err.Message], [StoreCall.getList])
    | .ok usersList => some ([Output.entries usersList], [StoreCall.getList])
  else if sub = "insert" then
    match validateInsert arguments with
    | some err => some ([Output.line err], [])
    | none =>
      match arguments[2]?, arguments[3]?, arguments[4]? with
      | some name, some surname, some phone =>
        match store.Insert
            { id := 0, Name := name, Surname := surname, PhoneNumber := phone } with
        | .error err =>
            some ([Output.line err.Message],
              [StoreCall.insert
                { id := 0, Name := name, Surname := surname, PhoneNumber := phone }])
        | .ok id =>
            some ([Output.line
                ("successfully inserted with id = " ++ toString id ++ " ")],
              [StoreCall.insert
                { id := 0, Name := name, Surname := surname, PhoneNumber := phone }])
      | _, _, _ => none
  else if sub = "delete" then
    match validateDelete arguments with
    | some err => some ([Output.line err], [])
    | none =>
      match arguments[2]? with
      | none => none
      | some key =>
        match store.Delete key with
        | .error err => some ([Output.line err.Message], [StoreCall.delete key])
        | .ok _ => some ([Output.line "successfully deleted"], [StoreCall.delete key])
  else
    some ([Output.line "not valid option"], [])

/-- `CommandLineHandler` from controller.go.  Returns the list of printed
outputs and the trace of store calls made, in order; `none` models a panic
from an out-of-bounds index (`arguments[1]` on a vector shorter than 2).
The error of `checkArgumentsLength` is only tested, never printed. -/
def CommandLineHandler (store : Store) (arguments : List String) :
    Option (List Output × List StoreCall) :=
  if (checkArgumentsLength arguments).isSome then
    some ([], [])
  else
    match arguments[1]? with
    | none => none
    | some sub => dispatchSub store arguments sub

/-- Modelled from the spec: the maximum identifier currently present in a
collection (used by the missing phonebook package Insert). -/
def maxId : List Entry → Int
  | [] => 0
  | e :: es => es.foldl (fun m x => max m x.id) e.id

/-- Modelled from the spec: `Insert` of the phonebook package, which is not
among the sources.  Assigns the entry an identifier one greater than the
maximum identifier currently present, or 1 if the collection is empty,
appends it, and returns the assigned identifier with the new collection. -/
def specInsert (collection : List Entry) (e : Entry) : Int × List Entry :=
  let newId : Int := if collection.isEmpty then 1 else maxId collection + 1
  (newId, collection ++ [{ e with id := newId }])

/-- Modelled from the spec: `Delete` of the phonebook package, which is not
among the sources.  Scans for an entry whose phone number equals the key;
if found removes it keeping the order of the rest, otherwise reports
not-found with no mutation. -/
def specDelete : List Entry → String → Option (List Entry)
  | [], _ => none
  | e :: es, key =>
      if e.PhoneNumber = key then some es
      else (specDelete es key).map (fun l => e :: l)

/-- The error message a given store returns for a given call, if the call
fails there; `none` when the call succeeds. -/
def callError (store : Store) : StoreCall → Option String
  | .getList =>
      match store.GetList with
      | .error e => some e.Message
      | .ok _ => none
  | .serach l t =>
      match store.Serach l t with
      | .error e => some e.Message
      | .ok _ => none
  | .insert e =>
      match store.Insert e with
      | .error er => some er.Message
      | .ok _ => none
  | .delete k =>
      match store.Delete k with
      | .error er => some er.Message
      | .ok _ => none

/-- A concrete store over the empty collection, used to evaluate the
dispatcher at concrete inputs. -/
def emptyStore : Store where
  GetList := Except.ok []
  Serach := fun _ _ => Except.error { Message := "entry not found" }
  Insert := fun _ => Except.ok 1
  Delete := fun _ => Except.error { Message := "entry not found" }

/-- The length-1 guard passes on every vector of two or more elements. -/
lemma checkArgumentsLength_cons (a b : String) (rest : List String) :
    checkArgumentsLength (a :: b :: rest) = none := by
  unfold checkArgumentsLength
  rw [if_neg (show ¬(a :: b :: rest).length = 1 by
    simp only [List.length_cons]; omega)]

/-- On a vector with at least two elements the length-1 guard passes and
the switch runs on element 1. -/
lemma handler_cons (store : Store) (a b : String) (rest : List String) :
    CommandLineHandler store (a :: b :: rest) = dispatchSub store (a :: b :: rest) b := by
  unfold CommandLineHandler
  rw [checkArgumentsLength_cons]
  simp only [Option.isSome_none, Bool.false_eq_true, if_false,
    List.getElem?_cons_succ, List.getElem?_cons_zero]

/-- An unrecognized subcommand falls through to the default case. -/
lemma dispatch_other (store : Store) (args : List String) (b : String)
    (h1 : b ≠ "search") (h2 : b ≠ "list") (h3 : b ≠ "insert") (h4 : b ≠ "delete") :
    dispatchSub store args b = some ([Output.line "not valid option"], []) := by
  unfold dispatchSub
  rw [if_neg h1, if_neg h2, if_neg h3, if_neg h4]

example : CommandLineHandler emptyStore ["prog"] = some ([], []) := by rfl

example : CommandLineHandler emptyStore [] = none := by rfl

example : CommandLineHandler emptyStore ["prog", "list"] =
    some ([Output.entries []], [StoreCall.getList]) := by rfl

example : CommandLineHandler emptyStore ["prog", "insert", "a", "b", "c"] =
    some ([Output.line "successfully inserted with id = 1 "],
      [StoreCall.insert { id := 0, Name := "a", Surname := "b", PhoneNumber := "c" }]) := by
  rfl

/-- A vector whose element 1 is `s` is some `a :: s :: rest`. -/
lemma getElem1_shape {args : List String} {s : String} (h : args[1]? = some s) :
    ∃ a rest, args = a :: s :: rest := by
  match args with
  | [] => simp at h
  | [a] => simp at h
  | a :: b :: rest =>
    simp only [List.getElem?_cons_succ, List.getElem?_cons_zero, Option.some.injEq] at h
    exact ⟨a, rest, by rw [h]⟩

/-- An insert vector of the wrong length is rejected before any store call,
with the message of validateInsert. -/
lemma dispatch_insert_badlen (store : Store) (a : String) (rest : List String)
    (hlen : (a :: "insert" :: rest).length ≠ 5) :
    CommandLineHandler store (a :: "insert" :: rest) =
      some ([Output.line "not enought arguments for insert"], []) := by
  rw [handler_cons]
  unfold dispatchSub
  rw [if_neg (by decide), if_neg (by decide), if_pos rfl]
  have hv : validateInsert (a :: "insert" :: rest) =
      some "not enought arguments for insert" := by
    unfold validateInsert
    rw [if_pos hlen]
  rw [hv]

/-- A delete vector of the wrong length is rejected before any store call,
with the message of validateDelete. -/
lemma dispatch_delete_badlen (store : Store) (a : String) (rest : List String)
    (hlen : (a :: "delete" :: rest).length ≠ 3) :
    CommandLineHandler store (a :: "delete" :: rest) =
      some ([Output.line "not enought arguments for delete"], []) := by
  rw [handler_cons]
  unfold dispatchSub
  rw [if_neg (by decide), if_neg (by decide), if_neg (by decide), if_pos rfl]
  have hv : validateDelete (a :: "delete" :: rest) =
      some "not enought arguments for delete" := by
    unfold validateDelete
    rw [if_pos hlen]
  rw [hv]

/-- C1: on every argument vector of length exactly 1 the dispatcher makes
no store call, but it also prints nothing: the message
`Please enter required arguments!!` built by checkArgumentsLength is
discarded by the silent early return of CommandLineHandler. -/
theorem c1_single_argument_silent (store : Store) (a : String) :
    CommandLineHandler store [a] = some ([], []) := rfl

/-- C2 counterexample: on the empty argument vector the dispatcher reads
element 1 of an empty list, which is out of bounds — it does not terminate
normally. -/
theorem c2_empty_vector_panics : CommandLineHandler emptyStore [] = none := rfl

/-- C2 (amended): for every store and every non-empty argument vector the
dispatcher terminates normally, every reachable list index in bounds. -/
theorem c2_nonempty_terminates (store : Store) (args : List String)
    (h : args ≠ []) : (CommandLineHandler store args).isSome = true := by
  match args with
  | [] => exact absurd rfl h
  | [a] => rfl
  | a :: b :: rest =>
    rw [handler_cons]
    by_cases h1 : b = "search"
    · unfold dispatchSub
      rw [if_pos h1]
      by_cases hl : rest.length = 1
      · obtain ⟨t, rfl⟩ := List.length_eq_one.mp hl
        rw [if_neg (by simp)]
        simp only [List.getElem?_cons_succ, List.getElem?_cons_zero]
        cases store.GetList with
        | error e => rfl
        | ok l =>
          cases hS : store.Serach l t with
          | error e => simp [hS]
          | ok r => simp [hS]
      · rw [if_pos (by simp only [List.length_cons]; omega)]
        rfl
    · by_cases h2 : b = "list"
      · unfold dispatchSub
        rw [if_neg h1, if_pos h2]
        cases store.GetList with
        | error e => rfl
        | ok l => rfl
      · by_cases h3 : b = "insert"
        · unfold dispatchSub
          rw [if_neg h1, if_neg h2, if_pos h3]
          by_cases hl : rest.length = 3
          · obtain ⟨n, s, p, rfl⟩ := List.length_eq_three.mp hl
            have hv : validateInsert (a :: b :: [n, s, p]) = none := rfl
            rw [hv]
            cases hI : store.Insert { id := 0, Name := n, Surname := s, PhoneNumber := p } with
            | error e => simp [hI]
            | ok i => simp [hI]
          · have hv : validateInsert (a :: b :: rest) =
                some "not enought arguments for insert" := by
              unfold validateInsert
              rw [if_pos (by simp only [List.length_cons]; omega)]
            rw [hv]
            rfl
        · by_cases h4 : b = "delete"
          · unfold dispatchSub
            rw [if_neg h1, if_neg h2, if_neg h3, if_pos h4]
            by_cases hl : rest.length = 1
            · obtain ⟨k, rfl⟩ := List.length_eq_one.mp hl
              have hv : validateDelete (a :: b :: [k]) = none := rfl
              rw [hv]
              cases hD : store.Delete k with
              | error e => simp [hD]
              | ok u => simp [hD]
            · have hv : validateDelete (a :: b :: rest) =
                  some "not enought arguments for delete" := by
                unfold validateDelete
                rw [if_pos (by simp only [List.length_cons]; omega)]
              rw [hv]
              rfl
          · rw [dispatch_other store _ b h1 h2 h3 h4]
            rfl

/-- C2 witness: the amended theorem at a concrete store and vector. -/
theorem c2_nonempty_terminates_witness :
    (CommandLineHandler emptyStore ["prog", "list"]).isSome = true :=
  c2_nonempty_terminates emptyStore ["prog", "list"] (by decide)

/-- C4 counterexample: with element 1 equal to `list` and length 3, the
dispatcher still fetches the full collection and prints it. -/
theorem c4_length_not_checked :
    ["prog", "list", "extra"].length ≠ 2 ∧
    CommandLineHandler emptyStore ["prog", "list", "extra"] =
      some ([Output.entries []], [StoreCall.getList]) :=
  ⟨by decide, rfl⟩

/-- C4 (amended): for every argument vector whose element 1 is `list`,
whatever its length, the dispatcher fetches the full collection and prints
it (or the store error message); extra elements are ignored, the length is
never checked. -/
theorem c4_list_ignores_length (store : Store) (args : List String)
    (h1 : args[1]? = some "list") :
    CommandLineHandler store args =
      some (match store.GetList with
        | .error err => ([Output.line err.Message], [StoreCall.getList])
        | .ok usersList => ([Output.entries usersList], [StoreCall.getList])) := by
  match args with
  | [] => simp at h1
  | [a] => simp at h1
  | a :: b :: rest =>
    simp only [List.getElem?_cons_succ, List.getElem?_cons_zero, Option.some.injEq] at h1
    subst h1
    rw [handler_cons]
    unfold dispatchSub
    rw [if_neg (by decide), if_pos rfl]
    cases store.GetList with
    | error e => rfl
    | ok l => rfl

/-- C4 witness: the amended theorem at a concrete store and vector. -/
theorem c4_list_ignores_length_witness :
    CommandLineHandler emptyStore ["prog", "list", "extra", "args"] =
      some ([Output.entries []], [StoreCall.getList]) :=
  c4_list_ignores_length emptyStore ["prog", "list", "extra", "args"] rfl

/-- C6 counterexample: the successful insert line carries a trailing space
before the newline, so it is not exactly the literal text followed by the
decimal identifier alone. -/
theorem c6_trailing_space :
    CommandLineHandler emptyStore ["prog", "insert", "Alice", "Smith", "555-0100"] =
      some ([Output.line "successfully inserted with id = 1 "],
        [StoreCall.insert
          { id := 0, Name := "Alice", Surname := "Smith", PhoneNumber := "555-0100" }]) ∧
    "successfully inserted with id = 1 " ≠ "successfully inserted with id = 1" :=
  ⟨rfl, by decide⟩

/-- C6 (amended): for every insert invocation with exactly 5 elements where
the store insert succeeds with identifier i, the printed line is the
literal text, the decimal identifier, and one trailing space. -/
theorem c6_success_line (store : Store) (a n s p : String) (i : Int)
    (h : store.Insert { id := 0, Name := n, Surname := s, PhoneNumber := p } =
      Except.ok i) :
    CommandLineHandler store [a, "insert", n, s, p] =
      some ([Output.line ("successfully inserted with id = " ++ toString i ++ " ")],
        [StoreCall.insert { id := 0, Name := n, Surname := s, PhoneNumber := p }]) := by
  rw [handler_cons]
  unfold dispatchSub
  rw [if_neg (by decide), if_neg (by decide), if_pos rfl]
  have hv : validateInsert [a, "insert", n, s, p] = none := rfl
  rw [hv]
  simp [h]

/-- C6 witness: the amended theorem at a concrete store and vector. -/
theorem c6_success_line_witness :
    CommandLineHandler emptyStore ["prog", "insert", "a", "b", "c"] =
      some ([Output.line ("successfully inserted with id = " ++ toString (1 : Int) ++ " ")],
        [StoreCall.insert { id := 0, Name := "a", Surname := "b", PhoneNumber := "c" }]) :=
  c6_success_line emptyStore "prog" "a" "b" "c" 1 rfl

/-- C3: with element 1 equal to `search`, a length other than 3 prints
exactly `Please provide a search term` with no store call; length exactly 3
first fetches the full collection, then searches it with element 2 as the
term, printing the matched entry or the error message of the store at the
first failing step. -/
theorem c3_search_behaviour (store : Store) (args : List String)
    (h1 : args[1]? = some "search") :
    (args.length ≠ 3 →
      CommandLineHandler store args =
        some ([Output.line "Please provide a search term"], [])) ∧
    (∀ t, args.length = 3 → args[2]? = some t →
      CommandLineHandler store args =
        some (match store.GetList with
          | .error appErr => ([Output.line appErr.Message], [StoreCall.getList])
          | .ok usersList =>
            match store.Serach usersList t with
            | .error err => ([Output.line err.Message],
                [StoreCall.getList, StoreCall.serach usersList t])
            | .ok result => ([Output.entry result],
                [StoreCall.getList, StoreCall.serach usersList t]))) := by
  obtain ⟨a, rest, rfl⟩ := getElem1_shape h1
  constructor
  · intro hlen
    rw [handler_cons]
    unfold dispatchSub
    rw [if_pos rfl, if_pos hlen]
  · intro t hlen ht
    obtain ⟨u, rfl⟩ : ∃ u, rest = [u] := by
      refine List.length_eq_one.mp ?_
      simp only [List.length_cons] at hlen
      omega
    simp only [List.getElem?_cons_succ, List.getElem?_cons_zero, Option.some.injEq] at ht
    subst ht
    rw [handler_cons]
    unfold dispatchSub
    rw [if_pos rfl, if_neg (by simp)]
    simp only [List.getElem?_cons_succ, List.getElem?_cons_zero]
    cases store.GetList with
    | error e => rfl
    | ok l =>
      cases hS : store.Serach l u with
      | error e => simp [hS]
      | ok r => simp [hS]

/-- C3 witness: the theorem at a concrete store and vector of each shape. -/
theorem c3_search_behaviour_witness :
    CommandLineHandler emptyStore ["prog", "search"] =
      some ([Output.line "Please provide a search term"], []) ∧
    CommandLineHandler emptyStore ["prog", "search", "term"] =
      some ([Output.line "entry not found"],
        [StoreCall.getList, StoreCall.serach [] "term"]) := by
  constructor
  · exact (c3_search_behaviour emptyStore ["prog", "search"] rfl).1 (by decide)
  · have h := (c3_search_behaviour emptyStore ["prog", "search", "term"] rfl).2
      "term" (by decide) rfl
    simpa [emptyStore] using h

/-- C5: with element 1 equal to `insert`, a length other than 5 prints a
validation error and makes no store call; length exactly 5 calls the store
insert with an Entry built from elements 2, 3, 4 and id unset (zero), and
on failure prints only the error message of the store. -/
theorem c5_insert_behaviour (store : Store) (args : List String)
    (h1 : args[1]? = some "insert") :
    (args.length ≠ 5 →
      CommandLineHandler store args =
        some ([Output.line "not enought arguments for insert"], [])) ∧
    (∀ n s p, args.length = 5 →
      args[2]? = some n → args[3]? = some s → args[4]? = some p →
      CommandLineHandler store args =
        some (match store.Insert { id := 0, Name := n, Surname := s, PhoneNumber := p } with
          | .error err => ([Output.line err.Message],
              [StoreCall.insert { id := 0, Name := n, Surname := s, PhoneNumber := p }])
          | .ok i =>
              ([Output.line ("successfully inserted with id = " ++ toString i ++ " ")],
              [StoreCall.insert { id := 0, Name := n, Surname := s, PhoneNumber := p }]))) := by
  obtain ⟨a, rest, rfl⟩ := getElem1_shape h1
  constructor
  · exact dispatch_insert_badlen store a rest
  · intro n s p hlen hn hs hp
    obtain ⟨x, y, z, rfl⟩ : ∃ x y z, rest = [x, y, z] := by
      refine List.length_eq_three.mp ?_
      simp only [List.length_cons] at hlen
      omega
    simp only [List.getElem?_cons_succ, List.getElem?_cons_zero, Option.some.injEq]
      at hn hs hp
    subst hn hs hp
    rw [handler_cons]
    unfold dispatchSub
    rw [if_neg (by decide), if_neg (by decide), if_pos rfl]
    have hv : validateInsert (a :: "insert" :: [x, y, z]) = none := rfl
    rw [hv]
    simp only [List.getElem?_cons_succ, List.getElem?_cons_zero]
    cases hI : store.Insert { id := 0, Name := x, Surname := y, PhoneNumber := z } with
    | error e => simp [hI]
    | ok i => simp [hI]

/-- C5 witness: the theorem at a concrete store and vector of each shape. -/
theorem c5_insert_behaviour_witness :
    CommandLineHandler emptyStore ["prog", "insert", "Alice"] =
      some ([Output.line "not enought arguments for insert"], []) ∧
    CommandLineHandler emptyStore ["prog", "insert", "Alice", "Smith", "555-0100"] =
      some ([Output.line ("successfully inserted with id = " ++ toString (1 : Int) ++ " ")],
        [StoreCall.insert
          { id := 0, Name := "Alice", Surname := "Smith", PhoneNumber := "555-0100" }]) := by
  constructor
  · exact (c5_insert_behaviour emptyStore ["prog", "insert", "Alice"] rfl).1 (by decide)
  · have h := (c5_insert_behaviour emptyStore
        ["prog", "insert", "Alice", "Smith", "555-0100"] rfl).2
      "Alice" "Smith" "555-0100" (by decide) rfl rfl rfl
    simpa [emptyStore] using h

/-- C7: with element 1 equal to `delete`, a length other than 3 prints a
validation error and makes no store call; length exactly 3 calls the store
delete with element 2 as the phone-number key and prints exactly
`successfully deleted` on success, or the error message of the store on
failure. -/
theorem c7_delete_behaviour (store : Store) (args : List String)
    (h1 : args[1]? = some "delete") :
    (args.length ≠ 3 →
      CommandLineHandler store args =
        some ([Output.line "not enought arguments for delete"], [])) ∧
    (∀ k, args.length = 3 → args[2]? = some k →
      CommandLineHandler store args =
        some (match store.Delete k with
          | .error err => ([Output.line err.Message], [StoreCall.delete k])
          | .ok _ => ([Output.line "successfully deleted"], [StoreCall.delete k]))) := by
  obtain ⟨a, rest, rfl⟩ := getElem1_shape h1
  constructor
  · exact dispatch_delete_badlen store a rest
  · intro k hlen hk
    obtain ⟨u, rfl⟩ : ∃ u, rest = [u] := by
      refine List.length_eq_one.mp ?_
      simp only [List.length_cons] at hlen
      omega
    simp only [List.getElem?_cons_succ, List.getElem?_cons_zero, Option.some.injEq] at hk
    subst hk
    rw [handler_cons]
    unfold dispatchSub
    rw [if_neg (by decide), if_neg (by decide), if_neg (by decide), if_pos rfl]
    have hv : validateDelete (a :: "delete" :: [u]) = none := rfl
    rw [hv]
    simp only [List.getElem?_cons_succ, List.getElem?_cons_zero]
    cases hD : store.Delete u with
    | error e => simp [hD]
    | ok u => simp [hD]

/-- C7 witness: the theorem at a concrete store and vector of each shape. -/
theorem c7_delete_behaviour_witness :
    CommandLineHandler emptyStore ["prog", "delete"] =
      some ([Output.line "not enought arguments for delete"], []) ∧
    CommandLineHandler emptyStore ["prog", "delete", "555-0100"] =
      some ([Output.line "entry not found"], [StoreCall.delete "555-0100"]) := by
  constructor
  · exact (c7_delete_behaviour emptyStore ["prog", "delete"] rfl).1 (by decide)
  · have h := (c7_delete_behaviour emptyStore ["prog", "delete", "555-0100"] rfl).2
      "555-0100" (by decide) rfl
    simpa [emptyStore] using h

/-- C10: the argument-shape validation messages at the public interface are
exactly `not enought arguments for insert` whenever element 1 is `insert`
and the length is not 5, and `not enought arguments for delete` whenever
element 1 is `delete` and the length is not 3 — including too many
arguments, not only too few. -/
theorem c10_validation_messages (store : Store) (args : List String) :
    (args[1]? = some "insert" → args.length ≠ 5 →
      CommandLineHandler store args =
        some ([Output.line "not enought arguments for insert"], [])) ∧
    (args[1]? = some "delete" → args.length ≠ 3 →
      CommandLineHandler store args =
        some ([Output.line "not enought arguments for delete"], [])) := by
  constructor
  · intro h1 hlen
    obtain ⟨a, rest, rfl⟩ := getElem1_shape h1
    exact dispatch_insert_badlen store a rest hlen
  · intro h1 hlen
    obtain ⟨a, rest, rfl⟩ := getElem1_shape h1
    exact dispatch_delete_badlen store a rest hlen

/-- C10 witness: the theorem at concrete vectors with too many arguments. -/
theorem c10_validation_messages_witness :
    CommandLineHandler emptyStore ["prog", "insert", "a", "b", "c", "d"] =
      some ([Output.line "not enought arguments for insert"], []) ∧
    CommandLineHandler emptyStore ["prog", "delete", "x", "y"] =
      some ([Output.line "not enought arguments for delete"], []) := by
  constructor
  · exact (c10_validation_messages emptyStore
      ["prog", "insert", "a", "b", "c", "d"]).1 rfl (by decide)
  · exact (c10_validation_messages emptyStore
      ["prog", "delete", "x", "y"]).2 rfl (by decide)

/-- An accumulator is below the running maximum of a fold over ids. -/
lemma le_foldl_max (es : List Entry) (init : Int) :
    init ≤ es.foldl (fun m x => max m x.id) init := by
  induction es generalizing init with
  | nil => exact le_refl init
  | cons y t ih =>
    simp only [List.foldl_cons]
    exact le_trans (le_max_left init y.id) (ih (max init y.id))

/-- Each member id is below the running maximum of a fold over ids. -/
lemma mem_le_foldl_max (es : List Entry) (init : Int) (x : Entry) (hx : x ∈ es) :
    x.id ≤ es.foldl (fun m x => max m x.id) init := by
  induction es generalizing init with
  | nil => cases hx
  | cons y t ih =>
    simp only [List.foldl_cons]
    rcases List.mem_cons.mp hx with rfl | hmem
    · exact le_trans (le_max_right init x.id) (le_foldl_max t (max init x.id))
    · exact ih (max init y.id) hmem

/-- Each member id is at most the maximum id of the collection. -/
lemma mem_le_maxId {x : Entry} {l : List Entry} (hx : x ∈ l) : x.id ≤ maxId l := by
  cases l with
  | nil => cases hx
  | cons e es =>
    unfold maxId
    rcases List.mem_cons.mp hx with rfl | hmem
    · exact le_foldl_max es x.id
    · exact mem_le_foldl_max es e.id x hmem

/-- A concrete record with identifier 1. -/
def entryA : Entry :=
  { id := 1, Name := "Alice", Surname := "Smith", PhoneNumber := "555-0100" }

/-- A concrete record with identifier 2. -/
def entryB : Entry :=
  { id := 2, Name := "Bob", Surname := "Stone", PhoneNumber := "555-0200" }

/-- A concrete record before insertion, identifier unset. -/
def entryC : Entry :=
  { id := 0, Name := "Carol", Surname := "Swan", PhoneNumber := "555-0300" }

/-- C9 counterexample: deleting the entry that holds the maximum identifier
and inserting afterwards reassigns the deleted identifier — entryB with
identifier 2 is removed from the two-entry collection, and the next insert
assigns that same identifier 2 to the new entry. -/
theorem c9_deleted_id_reused :
    specDelete [entryA, entryB] "555-0200" = some [entryA] ∧
    entryB.id = 2 ∧
    (specInsert [entryA] entryC).1 = 2 :=
  ⟨rfl, rfl, rfl⟩

/-- C9 (amended): a successful insert assigns one greater than the maximum
identifier present, or 1 on an empty collection, so the assigned identifier
is strictly greater than every identifier present before the call; an
identifier freed by deleting the entry holding the maximum can however be
reused by a later insert. -/
theorem c9_insert_id (l : List Entry) (e : Entry) :
    (specInsert l e).1 = (if l.isEmpty then 1 else maxId l + 1) ∧
    (∀ x, x ∈ l → x.id < (specInsert l e).1) := by
  constructor
  · rfl
  · intro x hx
    have hne : l.isEmpty = false := by
      cases l with
      | nil => cases hx
      | cons a t => rfl
    have h1 : (specInsert l e).1 = maxId l + 1 := by
      simp [specInsert, hne]
    rw [h1]
    exact lt_of_le_of_lt (mem_le_maxId hx) (by omega)

/-- C9 witness: the amended theorem at a concrete collection and entry. -/
theorem c9_insert_id_witness :
    (specInsert [entryA] entryC).1 = maxId [entryA] + 1 ∧
    entryA.id < (specInsert [entryA] entryC).1 := by
  have h := c9_insert_id [entryA] entryC
  exact ⟨by simpa using h.1, h.2 entryA (by simp)⟩

/-- A concrete store on which every operation fails. -/
def failStore : Store where
  GetList := Except.error { Message := "load failed" }
  Serach := fun _ _ => Except.error { Message := "entry not found" }
  Insert := fun _ => Except.error { Message := "write failed" }
  Delete := fun _ => Except.error { Message := "entry not found" }

/-- C8: on every dispatcher path, whenever a store call of the trace
returns an error, the printed output is exactly that error message and the
failed call is the last call of the trace: no result is printed together
with an error and no store call follows a failed one. -/
theorem c8_errors_stop (store : Store) (args : List String)
    (out : List Output) (calls : List StoreCall)
    (hres : CommandLineHandler store args = some (out, calls)) :
    ∀ c ∈ calls, ∀ msg, callError store c = some msg →
      out = [Output.line msg] ∧ calls.getLast? = some c := by
  match args with
  | [] =>
    rw [show CommandLineHandler store [] = none from rfl] at hres
    cases hres
  | [a] =>
    rw [show CommandLineHandler store [a] = some ([], []) from rfl] at hres
    obtain ⟨rfl, rfl⟩ : out = [] ∧ calls = [] := by simpa using hres.symm
    intro c hc
    simp at hc
  | a :: b :: rest =>
    rw [handler_cons] at hres
    unfold dispatchSub at hres
    by_cases h1 : b = "search"
    · rw [if_pos h1] at hres
      by_cases hl : (a :: b :: rest).length ≠ 3
      · rw [if_pos hl] at hres
        obtain ⟨rfl, rfl⟩ :
            out = [Output.line "Please provide a search term"] ∧ calls = [] := by
          simpa using hres.symm
        intro c hc
        simp at hc
      · rw [if_neg hl] at hres
        obtain ⟨t, rfl⟩ : ∃ t, rest = [t] := by
          refine List.length_eq_one.mp ?_
          simp only [List.length_cons, not_not] at hl
          omega
        cases hg : store.GetList with
        | error e =>
          rw [hg] at hres
          obtain ⟨rfl, rfl⟩ :
              out = [Output.line e.Message] ∧ calls = [StoreCall.getList] := by
            simpa using hres.symm
          intro c hc msg hmsg
          simp only [List.mem_singleton] at hc
          subst hc
          simp only [callError, hg, Option.some.injEq] at hmsg
          subst hmsg
          exact ⟨rfl, rfl⟩
        | ok l =>
          rw [hg] at hres
          simp only [List.getElem?_cons_succ, List.getElem?_cons_zero] at hres
          cases hS : store.Serach l t with
          | error e =>
            rw [hS] at hres
            obtain ⟨rfl, rfl⟩ :
                out = [Output.line e.Message] ∧
                calls = [StoreCall.getList, StoreCall.serach l t] := by
              simpa using hres.symm
            intro c hc msg hmsg
            rcases (by simpa using hc :
                c = StoreCall.getList ∨ c = StoreCall.serach l t) with rfl | rfl
            · simp [callError, hg] at hmsg
            · simp only [callError, hS, Option.some.injEq] at hmsg
              subst hmsg
              exact ⟨rfl, rfl⟩
          | ok r =>
            rw [hS] at hres
            obtain ⟨rfl, rfl⟩ :
                out = [Output.entry r] ∧
                calls = [StoreCall.getList, StoreCall.serach l t] := by
              simpa using hres.symm
            intro c hc msg hmsg
            rcases (by simpa using hc :
                c = StoreCall.getList ∨ c = StoreCall.serach l t) with rfl | rfl
            · simp [callError, hg] at hmsg
            · simp [callError, hS] at hmsg
    · rw [if_neg h1] at hres
      by_cases h2 : b = "list"
      · rw [if_pos h2] at hres
        cases hg : store.GetList with
        | error e =>
          rw [hg] at hres
          obtain ⟨rfl, rfl⟩ :
              out = [Output.line e.Message] ∧ calls = [StoreCall.getList] := by
            simpa using hres.symm
          intro c hc msg hmsg
          simp only [List.mem_singleton] at hc
          subst hc
          simp only [callError, hg, Option.some.injEq] at hmsg
          subst hmsg
          exact ⟨rfl, rfl⟩
        | ok l =>
          rw [hg] at hres
          obtain ⟨rfl, rfl⟩ :
              out = [Output.entries l] ∧ calls = [StoreCall.getList] := by
            simpa using hres.symm
          intro c hc msg hmsg
          simp only [List.mem_singleton] at hc
          subst hc
          simp [callError, hg] at hmsg
      · rw [if_neg h2] at hres
        by_cases h3 : b = "insert"
        · rw [if_pos h3] at hres
          by_cases hl : rest.length = 3
          · obtain ⟨x, y, z, rfl⟩ := List.length_eq_three.mp hl
            rw [show validateInsert (a :: b :: [x, y, z]) = none from by
              unfold validateInsert
              rw [if_neg (by simp)]] at hres
            simp only [List.getElem?_cons_succ, List.getElem?_cons_zero] at hres
            cases hI : store.Insert
                { id := 0, Name := x, Surname := y, PhoneNumber := z } with
            | error e =>
              rw [hI] at hres
              obtain ⟨rfl, rfl⟩ :
                  out = [Output.line e.Message] ∧
                  calls = [StoreCall.insert
                    { id := 0, Name := x, Surname := y, PhoneNumber := z }] := by
                simpa using hres.symm
              intro c hc msg hmsg
              simp only [List.mem_singleton] at hc
              subst hc
              simp only [callError, hI, Option.some.injEq] at hmsg
              subst hmsg
              exact ⟨rfl, rfl⟩
            | ok i =>
              rw [hI] at hres
              obtain ⟨rfl, rfl⟩ :
                  out = [Output.line
                    ("successfully inserted with id = " ++ toString i ++ " ")] ∧
                  calls = [StoreCall.insert
                    { id := 0, Name := x, Surname := y, PhoneNumber := z }] := by
                simpa using hres.symm
              intro c hc msg hmsg
              simp only [List.mem_singleton] at hc
              subst hc
              simp [callError, hI] at hmsg
          · rw [show validateInsert (a :: b :: rest) =
                some "not enought arguments for insert" from by
              unfold validateInsert
              rw [if_pos (by simp only [List.length_cons]; omega)]] at hres
            obtain ⟨rfl, rfl⟩ :
                out = [Output.line "not enought arguments for insert"] ∧
                calls = [] := by
              simpa using hres.symm
            intro c hc
            simp at hc
        · rw [if_neg h3] at hres
          by_cases h4 : b = "delete"
          · rw [if_pos h4] at hres
            by_cases hl : rest.length = 1
            · obtain ⟨k, rfl⟩ := List.length_eq_one.mp hl
              rw [show validateDelete (a :: b :: [k]) = none from by
                unfold validateDelete
                rw [if_neg (by simp)]] at hres
              simp only [List.getElem?_cons_succ, List.getElem?_cons_zero] at hres
              cases hD : store.Delete k with
              | error e =>
                rw [hD] at hres
                obtain ⟨rfl, rfl⟩ :
                    out = [Output.line e.Message] ∧
                    calls = [StoreCall.delete k] := by
                  simpa using hres.symm
                intro c hc msg hmsg
                simp only [List.mem_singleton] at hc
                subst hc
                simp only [callError, hD, Option.some.injEq] at hmsg
                subst hmsg
                exact ⟨rfl, rfl⟩
              | ok u =>
                rw [hD] at hres
                obtain ⟨rfl, rfl⟩ :
                    out = [Output.line "successfully deleted"] ∧
                    calls = [StoreCall.delete k] := by
                  simpa using hres.symm
                intro c hc msg hmsg
                simp only [List.mem_singleton] at hc
                subst hc
                simp [callError, hD] at hmsg
            · rw [show validateDelete (a :: b :: rest) =
                  some "not enought arguments for delete" from by
                unfold validateDelete
                rw [if_pos (by simp only [List.length_cons]; omega)]] at hres
              obtain ⟨rfl, rfl⟩ :
                  out = [Output.line "not enought arguments for delete"] ∧
                  calls = [] := by
                simpa using hres.symm
              intro c hc
              simp at hc
          · rw [if_neg h4] at hres
            obtain ⟨rfl, rfl⟩ :
                out = [Output.line "not valid option"] ∧ calls = [] := by
              simpa using hres.symm
            intro c hc
            simp at hc

/-- C8 witness: the theorem at a concrete failing store and vector. -/
theorem c8_errors_stop_witness :
    [Output.line "load failed"] = [Output.line "load failed"] ∧
    [StoreCall.getList].getLast? = some StoreCall.getList :=
  c8_errors_stop failStore ["prog", "list"]
    [Output.line "load failed"] [StoreCall.getList] rfl
    StoreCall.getList (by simp) "load failed" rfl

end PhoneBook
